import Mathlib

/-!
Verification of the ROI morphology/statistics engine (`suite2p/detection/stats.py`).

The Python source is shallowly embedded below.  Conventions used throughout:

* numpy float arrays become `List ℝ`;
* a scalar that the Python code may turn into an IEEE non-finite value (NaN or an
  infinity) is modelled as `stats.PF := Option ℝ`, with `none` standing for any
  non-finite value; arithmetic on `stats.PF` propagates `none` exactly as IEEE
  arithmetic propagates NaN through `+`, `-`, `*` and `sqrt`, and division by zero
  produces `none` (0/0 is NaN, x/0 is an infinity; both are rejected by
  `np.linalg.eig`, the only consumer that distinguishes finite from non-finite
  here, so the two are deliberately collapsed);
* `fitMVGaus` mutates its `lam` argument in place (`lam /= lam.sum()`), so the
  stateful call is embedded as `stats.fitMVGausRun`, which returns the result
  together with the final contents of the `y`, `x` and `lam` buffers;
* code that raises a Python exception is embedded with `Except String`.
-/

noncomputable section

/-- A Python float: `some r` is the finite value `r`, `none` is any non-finite
value (NaN or ±inf).  See the header comment for the conflation caveat. -/
abbrev stats.PF : Type := Option ℝ

/-- IEEE division as performed by `lam /= lam.sum()`: division by zero yields a
non-finite value (NaN for 0/0, ±inf otherwise), modelled as `none`. -/
def stats.pyDiv (a b : ℝ) : stats.PF :=
  if b = 0 then none else some (a / b)

/-- Addition on Python floats; NaN/±inf propagate. -/
def stats.pfAdd : stats.PF → stats.PF → stats.PF
  | some a, some b => some (a + b)
  | _, _ => none

/-- Subtraction on Python floats; NaN/±inf propagate. -/
def stats.pfSub : stats.PF → stats.PF → stats.PF
  | some a, some b => some (a - b)
  | _, _ => none

/-- Multiplication on Python floats; NaN/±inf propagate (in IEEE, `NaN * 0 = NaN`,
so `none` absorbs even multiplication by zero). -/
def stats.pfMul : stats.PF → stats.PF → stats.PF
  | some a, some b => some (a * b)
  | _, _ => none

/-- Python `v ** 0.5` on a float: the square root of a negative number is NaN. -/
def stats.pfSqrt : stats.PF → stats.PF
  | some a => if a < 0 then none else some (Real.sqrt a)
  | none => none

/-- Sum of a list of Python floats (`np.sum`); any non-finite entry makes the
sum non-finite. -/
def stats.pfSum (l : List stats.PF) : stats.PF :=
  l.foldr stats.pfAdd (some 0)

/-- Pointwise product then sum: one entry of the matrix product `yx @ yx.T`. -/
def stats.pfDot (u v : List stats.PF) : stats.PF :=
  stats.pfSum (List.zipWith stats.pfMul u v)

/-- Source line `mu = (lam * yx).sum(axis=1)`, one coordinate: the weighted mean of `y`
with (already normalized) weights `lam1`. -/
def stats.muOf (lam1 : List stats.PF) (y : List ℝ) : stats.PF :=
  stats.pfSum (List.zipWith (fun l yi => stats.pfMul l (some yi)) lam1 y)

/-- Source line `yx = (yx - mu[:, np.newaxis]) * lam ** .5`, one coordinate: center on the
weighted mean, then scale by the square root of the weight. -/
def stats.centered (lam1 : List stats.PF) (y : List ℝ) (mu : stats.PF) : List stats.PF :=
  List.zipWith (fun l yi => stats.pfMul (stats.pfSub (some yi) mu) (stats.pfSqrt l)) lam1 y

/-- Function `distance_kernel(radius)`: 2D array of geometric distances from the center of a
`(2*radius+1) x (2*radius+1)` grid.  `d = np.arange(-radius, radius+1)` is embedded
by indexing rows and columns with `i, j ∈ range (2*radius+1)` and using `i - radius`,
`j - radius` as the coordinates (meshgrid entry `(i, j)` has distance
`sqrt(d[j]^2 + d[i]^2)`, which equals the expression below by commutativity). -/
def stats.distance_kernel (radius : ℕ) : List (List ℝ) :=
  (List.range (2 * radius + 1)).map (fun i : ℕ =>
    (List.range (2 * radius + 1)).map (fun j : ℕ =>
      Real.sqrt (((i : ℝ) - (radius : ℝ)) ^ 2 + ((j : ℝ) - (radius : ℝ)) ^ 2)))

/-- Table `np.sort(distance_kernel(radius=R).flatten())`: the radial reference table. -/
def stats.rsortTable (radius : ℕ) : List ℝ :=
  ((stats.distance_kernel radius).flatten).mergeSort (fun a b => decide (a ≤ b))

/-- Model of `np.median`: middle element of the sorted list for odd length, mean of the two
middle elements for even length.  (numpy returns NaN on an empty array; the model
returns 0 there, and no claim exercises the empty case.) -/
def stats.median (l : List ℝ) : ℝ :=
  let s := l.mergeSort (fun a b => decide (a ≤ b))
  if l.length % 2 = 1 then s.getD (l.length / 2) 0
  else (s.getD (l.length / 2 - 1) 0 + s.getD (l.length / 2) 0) / 2

/-- Model of `np.mean` (numpy returns NaN on an empty array; the model returns 0 there). -/
def stats.mean (l : List ℝ) : ℝ :=
  l.sum / l.length

/-- Function `mean_r_squared(y, x, estimator=np.median)`: the mean Euclidean distance of the
points `(y_i, x_i)` from the per-axis median.  The `estimator` argument always keeps
its default `np.median` at every call site in the source, so the model fixes it. -/
def stats.mean_r_squared (y x : List ℝ) : ℝ :=
  stats.mean (List.zipWith
    (fun yi xi => Real.sqrt ((yi - stats.median y) ^ 2 + (xi - stats.median x) ^ 2)) y x)

/-- Function `aspect_ratio(ry, rx, offset=.01)`.  The Python default `offset = 0.01` is passed
explicitly as `1 / 100` at every use below. -/
def stats.aspect_ratio (ry rx offset : ℝ) : ℝ :=
  2 * ry / (ry + rx + offset)

/-- The `EllipseData` named tuple.  `mu` and the `ellipse` boundary points are carried
as Python floats (they are NaN for empty inputs); `cov` and `radii` are genuinely
finite whenever the fit returns at all, because `np.linalg.eig` has already rejected
non-finite covariance entries at that point. -/
structure stats.EllipseData where
  mu : stats.PF × stats.PF
  cov : ℝ × ℝ × ℝ × ℝ
  radii : ℝ × ℝ
  ellipse : List (stats.PF × stats.PF)

/-- Property `EllipseData.area = (radii[0] * radii[1]) ** 0.5 * np.pi`. -/
def stats.EllipseData.area (e : stats.EllipseData) : ℝ :=
  Real.sqrt (e.radii.1 * e.radii.2) * Real.pi

/-- Normalize a 2D vector to unit length, as `np.linalg.eig` does for its
eigenvector columns. -/
def stats.unitize (v : ℝ × ℝ) : ℝ × ℝ :=
  (v.1 / Real.sqrt (v.1 ^ 2 + v.2 ^ 2), v.2 / Real.sqrt (v.1 ^ 2 + v.2 ^ 2))

/-- A deterministic model of `np.linalg.eig` on a finite real 2x2 matrix
`[[a, b], [c, d]]`, returning `(ev1, ev2, v1, v2)`: the real parts of the two
eigenvalues and unit eigenvectors.  The matrices reaching this point in the code
are the symmetric covariance matrices `yx @ yx.T`, for which the discriminant is
nonnegative and the closed form below is a genuine eigendecomposition; numpy fixes
no particular eigenvalue order or eigenvector sign, so the model just fixes one
deterministic convention (the spec requires tolerating exactly this freedom).
For a complex pair (impossible for the symmetric input produced by the code) the
common real part is returned for both, matching the `np.real` in the caller. -/
def stats.eig2 (a b c d : ℝ) : ℝ × ℝ × (ℝ × ℝ) × (ℝ × ℝ) :=
  let m := (a + d) / 2
  let disc := ((a - d) / 2) ^ 2 + b * c
  if 0 ≤ disc then
    let s := Real.sqrt disc
    let l1 := m + s
    let l2 := m - s
    let w1 := if b = 0 then (if c = 0 then ((1 : ℝ), (0 : ℝ)) else (l1 - d, c)) else (b, l1 - a)
    let w2 := if b = 0 then (if c = 0 then ((0 : ℝ), (1 : ℝ)) else (l2 - d, c)) else (b, l2 - a)
    (l1, l2, stats.unitize w1, stats.unitize w2)
  else
    (m, m, (1, 0), (0, 1))

/-- Source line `lam /= lam.sum()`: the contents of the `lam` buffer after the in-place
normalization at the top of `fitMVGaus`. -/
def stats.normWeights (lam : List ℝ) : List stats.PF :=
  lam.map (fun v => stats.pyDiv v lam.sum)

/-- The body of `fitMVGaus` after the weight normalization, acting on the already
normalized weights `lam1`.  `np.linalg.eig` asserts that its input is free of NaNs
and infinities and raises `LinAlgError("Array must not contain infs or NaNs")`
otherwise; this is the error branch below.  The boundary points pair each raw
(eigendecomposition-ordered) radius with its eigenvector, while the returned
`radii` are independently sorted descending (`np.sort(radii)[::-1]`), exactly as
in the source. -/
def stats.fitCore (y x : List ℝ) (lam1 : List stats.PF) (thres : ℝ) (npts : ℕ) :
    Except String stats.EllipseData :=
  let muY := stats.muOf lam1 y
  let muX := stats.muOf lam1 x
  let yc := stats.centered lam1 y muY
  let xc := stats.centered lam1 x muX
  match stats.pfDot yc yc, stats.pfDot yc xc, stats.pfDot xc yc, stats.pfDot xc xc with
  | some a, some b, some c, some d =>
    let e := stats.eig2 a b c d
    let r1 := thres * Real.sqrt (max 0 e.1)
    let r2 := thres * Real.sqrt (max 0 e.2.1)
    let v1 := e.2.2.1
    let v2 := e.2.2.2
    Except.ok
      { mu := (muY, muX)
        cov := (a, b, c, d)
        radii := (max r1 r2, min r1 r2)
        ellipse := (List.range npts).map (fun k =>
          let th := 2 * Real.pi * (k : ℝ) / ((npts : ℝ) - 1)
          let q1 := Real.cos th * r1
          let q2 := Real.sin th * r2
          (stats.pfAdd (some (q1 * v1.1 + q2 * v2.1)) muY,
           stats.pfAdd (some (q1 * v1.2 + q2 * v2.2)) muX)) }
  | _, _, _, _ => Except.error "Array must not contain infs or NaNs"

/-- Function `fitMVGaus(y, x, lam, thres, npts)` as a state-passing function: the first
component is the returned value (or the propagated numpy exception), the rest are
the final contents of the `y`, `x` and `lam` buffers.  `y` and `x` are never
written (all numpy expressions involving them allocate fresh arrays), while `lam`
is normalized in place by `lam /= lam.sum()` before anything else happens. -/
def stats.fitMVGausRun (y x lam : List ℝ) (thres : ℝ) (npts : ℕ) :
    Except String stats.EllipseData × List ℝ × List ℝ × List stats.PF :=
  (stats.fitCore y x (stats.normWeights lam) thres npts, y, x, stats.normWeights lam)

/-- The value returned by `fitMVGaus` (first component of `stats.fitMVGausRun`). -/
def stats.fitMVGaus (y x lam : List ℝ) (thres : ℝ) (npts : ℕ) :
    Except String stats.EllipseData :=
  (stats.fitMVGausRun y x lam thres npts).1

/-- Function `calc_radii(dy, dx, ypix, xpix, lam) = fitMVGaus(ypix/dy, xpix/dx, lam, 2).radii`
(`npts` keeps its default 100). -/
def stats.calc_radii (dy dx : ℝ) (ypix xpix lam : List ℝ) : Except String (ℝ × ℝ) :=
  (stats.fitMVGaus (ypix.map (fun v => v / dy)) (xpix.map (fun v => v / dx)) lam 2 100).map
    (fun e => e.radii)

/-- The frozen `ROI` dataclass.  `rsort` defaults to the shared sorted radius-30
distance kernel, exactly as the dataclass field default does. -/
structure ROI where
  ypix : List ℝ
  xpix : List ℝ
  lam : List ℝ
  dx : Option ℤ
  dy : Option ℤ
  rsort : List ℝ := stats.rsortTable 30

/-- The `__post_init__` validation: all three arrays share one shape. -/
def ROI.isValid (roi : ROI) : Prop :=
  roi.xpix.length = roi.ypix.length ∧ roi.xpix.length = roi.lam.length

/-- Property `ROI.mean_r_squared`. -/
def ROI.mean_r_squared (roi : ROI) : ℝ :=
  stats.mean_r_squared roi.ypix roi.xpix

/-- Property `ROI.mean_r_squared0 = np.mean(self.rsort[:self.ypix.size])`. -/
def ROI.mean_r_squared0 (roi : ROI) : ℝ :=
  stats.mean (roi.rsort.take roi.ypix.length)

/-- Property `ROI.mean_r_squared_compact = mean_r_squared / (1e-10 + mean_r_squared0)`. -/
def ROI.mean_r_squared_compact (roi : ROI) : ℝ :=
  roi.mean_r_squared / (1 / 10 ^ 10 + roi.mean_r_squared0)

/-- Property `ROI.median_pix = (np.median(ypix), np.median(xpix))`. -/
def ROI.median_pix (roi : ROI) : ℝ × ℝ :=
  (stats.median roi.ypix, stats.median roi.xpix)

/-- Property `ROI.n_pixels = xpix.size`. -/
def ROI.n_pixels (roi : ROI) : ℕ :=
  roi.xpix.length

/-- Property `ROI.radii`: raises `TypeError` when either scale factor is absent,
otherwise delegates to `calc_radii`. -/
def ROI.radii (roi : ROI) : Except String (ℝ × ℝ) :=
  match roi.dx, roi.dy with
  | some dx, some dy => stats.calc_radii (dy : ℝ) (dx : ℝ) roi.ypix roi.xpix roi.lam
  | _, _ => Except.error "dx and dy are required for calculating radii."

/-- Property `ROI.radius = radii[0] * np.mean((dx, dy))`: the `radii` access raises
first when a scale factor is absent. -/
def ROI.radius (roi : ROI) : Except String ℝ :=
  match roi.dx, roi.dy with
  | some dx, some dy =>
    (stats.calc_radii (dy : ℝ) (dx : ℝ) roi.ypix roi.xpix roi.lam).map
      (fun r => r.1 * (((dx : ℝ) + (dy : ℝ)) / 2))
  | _, _ => Except.error "dx and dy are required for calculating radii."

/-- Property `ROI.aspect_ratio = aspect_ratio(*self.radii)` (offset keeps its
default 0.01). -/
def ROI.aspect_ratio (roi : ROI) : Except String ℝ :=
  (ROI.radii roi).map (fun r => stats.aspect_ratio r.1 r.2 (1 / 100))

/-- One raw per-ROI record of the legacy batch adapter (a Python dict; a field that
may be absent from the dict is an `Option`). -/
structure Stat where
  ypix : List ℝ := []
  xpix : List ℝ := []
  lam : List ℝ := []
  mrs : Option ℝ := none
  mrs0 : Option ℝ := none
  compact : Option ℝ := none
  med : Option (ℝ × ℝ) := none
  npix : Option ℝ := none
  npix_norm : Option ℝ := none
  radius : Option ℝ := none
  aspect_ratio : Option ℝ := none
  footprint : Option ℝ := none

/-- Modelled from the spec: the Population Normalizer `norm_by_average` lives in
`suite2p/detection/utils.py`, which is not among the given sources.  Per the spec
(section 4.4) it divides every value by (estimator over the first `first_n` values,
plus `offset`), preserving length and order.  The default estimator is the median;
`np.nanmedian` coincides with `np.median` on NaN-free data, which is all this model
carries, so both call sites below pass `stats.median`. -/
def stats.norm_by_average (values : List ℝ) (estimator : List ℝ → ℝ)
    (offset : ℝ) (first_n : ℕ) : List ℝ :=
  values.map (fun v => v / (estimator (values.take first_n) + offset))

/-- The per-record pass of `roi_stats`: build an `ROI`, write the derived fields
back into the record, and fill `radius`/`aspect_ratio` only when `radius` is not
already present.  The `radius` branch can propagate the fitter's exception. -/
def stats.roiStatsPer (dy dx : ℤ) (s : Stat) : Except String Stat :=
  let roi : ROI := { ypix := s.ypix, xpix := s.xpix, lam := s.lam, dx := some dx, dy := some dy }
  let base : Stat :=
    { s with mrs := some roi.mean_r_squared
             mrs0 := some roi.mean_r_squared0
             compact := some roi.mean_r_squared_compact
             med := some roi.median_pix
             npix := some (roi.n_pixels : ℝ) }
  match s.radius with
  | some _ => Except.ok base
  | none => do
      let rad ← roi.radius
      let asp ← ROI.aspect_ratio roi
      Except.ok { base with radius := some rad, aspect_ratio := some asp }

/-- The normalization tail of `roi_stats`: two `norm_by_average` calls (`mrs` with
`np.nanmedian` and offset 1e-10, `npix` with the default estimator; both capped at
the first 100 values), then per record overwrite `mrs`, store the normalized pixel
count in the new field `npix_norm`, and default `footprint` to 0 when absent. -/
def stats.roiStatsNorm (s1 : List Stat) : List Stat :=
  let mrsN := stats.norm_by_average (s1.map (fun s => s.mrs.getD 0)) stats.median (1 / 10 ^ 10) 100
  let npixN := stats.norm_by_average (s1.map (fun s => s.npix.getD 0)) stats.median 0 100
  (s1.zip (mrsN.zip npixN)).map (fun p =>
    { p.1 with mrs := some p.2.1
               npix_norm := some p.2.2
               footprint := some (p.1.footprint.getD 0) })

/-- Function `roi_stats(dy, dx, stats)`: the per-record pass over the whole batch, then the
normalization tail.  (The source's `np.array(stats)` wraps the same mutated records;
the model returns the list itself.) -/
def stats.roi_stats (dy dx : ℤ) (batch : List Stat) : Except String (List Stat) :=
  (batch.mapM (stats.roiStatsPer dy dx)).map stats.roiStatsNorm

/-- A concrete legacy-adapter record (the 2x2 pixel square of the spec's end-to-end
scenario, with `radius` already present so that the per-record pass keeps it). -/
def C8stat : Stat :=
  { ypix := [0, 0, 1, 1], xpix := [0, 1, 0, 1], lam := [1, 1, 1, 1],
    radius := some 1, aspect_ratio := some 1 }

/-- The ROI that the per-record pass builds from `C8stat` (scale factors 1). -/
def C8roi : ROI :=
  { ypix := [0, 0, 1, 1], xpix := [0, 1, 0, 1], lam := [1, 1, 1, 1],
    dx := some 1, dy := some 1 }

/-- The record produced from `C8stat` by the per-record pass of `roi_stats`
(`radius` is present, so the fitter branch is skipped). -/
def C8base : Stat :=
  { C8stat with mrs := some C8roi.mean_r_squared
                mrs0 := some C8roi.mean_r_squared0
                compact := some C8roi.mean_r_squared_compact
                med := some C8roi.median_pix
                npix := some (C8roi.n_pixels : ℝ) }

/- ————————————————— helper lemmas ————————————————— -/

lemma stats.median_singleton (a : ℝ) : stats.median [a] = a := by
  simp [stats.median, List.mergeSort_singleton]

lemma stats.pfMul_none_right (a : stats.PF) : stats.pfMul a none = none := by
  cases a <;> rfl

lemma stats.pfMul_none_left (b : stats.PF) : stats.pfMul none b = none := by
  cases b <;> rfl

lemma stats.pfAdd_none_left (b : stats.PF) : stats.pfAdd none b = none := by
  cases b <;> rfl

lemma stats.pfDot_none_left (l1 l2 : List stats.PF) (h : ∀ a ∈ l1, a = none)
    (h1 : l1 ≠ []) (h2 : l2 ≠ []) : stats.pfDot l1 l2 = none := by
  cases l1 with
  | nil => exact absurd rfl h1
  | cons a t1 =>
    cases l2 with
    | nil => exact absurd rfl h2
    | cons b t2 =>
      have ha : a = none := h a (List.mem_cons_self a t1)
      simp [stats.pfDot, stats.pfSum, ha, stats.pfMul_none_left, stats.pfAdd_none_left]

lemma stats.normWeights_smul (c : ℝ) (hc : c ≠ 0) (lam : List ℝ) (hS : lam.sum ≠ 0) :
    stats.normWeights (lam.map (fun v => c * v)) = stats.normWeights lam := by
  unfold stats.normWeights
  have hsum : (lam.map (fun v => c * v)).sum = c * lam.sum := by
    simpa using List.sum_map_mul_left lam id c
  rw [List.map_map, hsum]
  refine List.map_congr_left (fun a _ => ?_)
  simp only [Function.comp_apply, stats.pyDiv, mul_eq_zero]
  rw [if_neg (by push_neg; exact ⟨hc, hS⟩), if_neg hS, mul_div_mul_left a lam.sum hc]

lemma stats.rsortTable_length (R : ℕ) : (stats.rsortTable R).length = (2 * R + 1) ^ 2 := by
  rw [stats.rsortTable, List.length_mergeSort, List.length_flatten, stats.distance_kernel,
    List.map_map]
  have h : (List.length ∘ fun i : ℕ =>
      (List.range (2 * R + 1)).map (fun j : ℕ =>
        Real.sqrt (((i : ℝ) - (R : ℝ)) ^ 2 + ((j : ℝ) - (R : ℝ)) ^ 2))) =
      fun _ : ℕ => 2 * R + 1 := by
    funext i
    simp
  rw [h, List.map_const', List.length_range, List.sum_replicate, smul_eq_mul, pow_two]

/- ————————————————— C4 ————————————————— -/

/-- C4: for every ROI, `mean_r_squared_compact` equals `mean_r_squared` divided by
`(mean_r_squared0 + 1e-10)`. -/
theorem C4_compact_is_ratio (roi : ROI) :
    roi.mean_r_squared_compact = roi.mean_r_squared / (roi.mean_r_squared0 + 1 / 10 ^ 10) := by
  rw [ROI.mean_r_squared_compact, add_comm]

/- ————————————————— C6 ————————————————— -/

/-- C6 counterexample: at `r = 0.001` the claim `aspect_ratio(r, r) ≈ 1.0` fails badly:
the value is below 1/2 (it is exactly 1/6), so it is not within any reasonable floating
tolerance of 1. -/
theorem C6_counterexample :
    (0 : ℝ) < 1 / 1000 ∧ stats.aspect_ratio (1 / 1000) (1 / 1000) (1 / 100) < 1 / 2 := by
  constructor
  · norm_num
  · rw [stats.aspect_ratio]; norm_num

/-- C6 (amended): for every `r ≥ 1`, `aspect_ratio(r, r)` with the default offset 0.01
is strictly below 1 and within 1/200 of 1; for small positive `r` the additive offset
dominates and the value is far from 1. -/
theorem C6_circle_case (r : ℝ) (h : 1 ≤ r) :
    stats.aspect_ratio r r (1 / 100) < 1 ∧ |stats.aspect_ratio r r (1 / 100) - 1| < 1 / 200 := by
  have hd : 0 < r + r + 1 / 100 := by linarith
  have hlt : stats.aspect_ratio r r (1 / 100) < 1 := by
    rw [stats.aspect_ratio, div_lt_one hd]; linarith
  refine ⟨hlt, abs_lt.mpr ⟨?_, by linarith⟩⟩
  rw [stats.aspect_ratio]
  have h2 : (199 : ℝ) / 200 < 2 * r / (r + r + 1 / 100) := by
    rw [lt_div_iff hd]; nlinarith
  linarith

/-- C6 witness: the amended statement at the concrete radius 1. -/
theorem C6_circle_case_witness :
    stats.aspect_ratio 1 1 (1 / 100) < 1 ∧ |stats.aspect_ratio 1 1 (1 / 100) - 1| < 1 / 200 :=
  C6_circle_case 1 (le_refl 1)

/- ————————————————— C7 ————————————————— -/

/-- C7 counterexample: at `ry = 0` the function is not strictly decreasing in `rx`:
`aspect_ratio(0, 1) = aspect_ratio(0, 2) = 0`. -/
theorem C7_counterexample :
    (0 : ℝ) ≤ 0 ∧ (0 : ℝ) ≤ 1 ∧ (1 : ℝ) < 2 ∧
      ¬ stats.aspect_ratio 0 2 (1 / 100) < stats.aspect_ratio 0 1 (1 / 100) := by
  refine ⟨le_refl 0, by norm_num, by norm_num, ?_⟩
  rw [stats.aspect_ratio, stats.aspect_ratio]
  norm_num

/-- C7 (amended): with the default offset, `aspect_ratio(ry, rx)` is strictly
increasing in `ry` for every fixed `rx ≥ 0`, and strictly decreasing in `rx` for
every fixed `ry > 0` (at `ry = 0` it is constantly 0, so only non-strict
monotonicity holds there). -/
theorem C7_monotone :
    (∀ rx ry1 ry2 : ℝ, 0 ≤ rx → 0 ≤ ry1 → ry1 < ry2 →
      stats.aspect_ratio ry1 rx (1 / 100) < stats.aspect_ratio ry2 rx (1 / 100)) ∧
    (∀ ry rx1 rx2 : ℝ, 0 < ry → 0 ≤ rx1 → rx1 < rx2 →
      stats.aspect_ratio ry rx2 (1 / 100) < stats.aspect_ratio ry rx1 (1 / 100)) := by
  constructor
  · intro rx ry1 ry2 hrx h1 h12
    have hd1 : 0 < ry1 + rx + 1 / 100 := by linarith
    have hd2 : 0 < ry2 + rx + 1 / 100 := by linarith
    rw [stats.aspect_ratio, stats.aspect_ratio, div_lt_div_iff hd1 hd2]
    nlinarith
  · intro ry rx1 rx2 hry h1 h12
    have hd1 : 0 < ry + rx1 + 1 / 100 := by linarith
    have hd2 : 0 < ry + rx2 + 1 / 100 := by linarith
    rw [stats.aspect_ratio, stats.aspect_ratio, div_lt_div_iff hd2 hd1]
    nlinarith

/-- C7 witness: both monotonicity directions at concrete inputs. -/
theorem C7_monotone_witness :
    stats.aspect_ratio 1 1 (1 / 100) < stats.aspect_ratio 2 1 (1 / 100) ∧
    stats.aspect_ratio 1 2 (1 / 100) < stats.aspect_ratio 1 1 (1 / 100) :=
  ⟨C7_monotone.1 1 1 2 (by norm_num) (by norm_num) (by norm_num),
   C7_monotone.2 1 1 2 (by norm_num) (by norm_num) (by norm_num)⟩

/- ————————————————— C1 ————————————————— -/

/-- C1 counterexample: at an input satisfying every fitter precondition
(`y`, `x`, `lam` of equal length, `lam` nonnegative and not all zero), the `lam`
buffer after the call differs from the original `lam`: `[1, 1]` has been overwritten
with `[1/2, 1/2]` by `lam /= lam.sum()`. -/
theorem C1_counterexample :
    (∀ v ∈ [(1 : ℝ), 1], 0 ≤ v) ∧ (∃ v ∈ [(1 : ℝ), 1], v ≠ 0) ∧
    ([(0 : ℝ), 1]).length = ([(1 : ℝ), 1]).length ∧
    (stats.fitMVGausRun [0, 1] [0, 1] [1, 1] (5 / 2) 4).2.2.2 ≠ [(1 : ℝ), 1].map some := by
  refine ⟨by norm_num, ⟨1, by norm_num⟩, by norm_num, ?_⟩
  show stats.normWeights [1, 1] ≠ _
  simp only [stats.normWeights, List.sum_cons, List.sum_nil, stats.pyDiv, List.map_cons,
    List.map_nil]
  norm_num

/-- C1 (amended): `fitMVGaus` leaves the `y` and `x` buffers unchanged, but
normalizes `lam` in place: afterwards the buffer holds `lam / lam.sum()`.  In
particular, whenever the weights do not already sum to 1 and are not all zero, the
`lam` buffer no longer holds its original contents. -/
theorem C1_fitMVGaus_buffer_effects (y x lam : List ℝ) (thres : ℝ) (npts : ℕ) :
    (stats.fitMVGausRun y x lam thres npts).2.1 = y ∧
    (stats.fitMVGausRun y x lam thres npts).2.2.1 = x ∧
    (stats.fitMVGausRun y x lam thres npts).2.2.2 = stats.normWeights lam ∧
    (lam.sum ≠ 1 → (∃ v ∈ lam, v ≠ 0) →
      (stats.fitMVGausRun y x lam thres npts).2.2.2 ≠ lam.map some) := by
  refine ⟨rfl, rfl, rfl, ?_⟩
  intro hs hex heq
  obtain ⟨v, hv, hv0⟩ := hex
  have h1 : ∀ a ∈ lam, stats.pyDiv a lam.sum = some a :=
    List.map_inj_left.mp heq
  have h2 := h1 v hv
  rw [stats.pyDiv] at h2
  by_cases hz : lam.sum = 0
  · rw [if_pos hz] at h2
    exact Option.noConfusion h2
  · rw [if_neg hz] at h2
    have h3 : v / lam.sum = v := Option.some.inj h2
    rw [div_eq_iff hz] at h3
    have h5 : v * 1 = v * lam.sum := by linarith [h3]
    exact hs (mul_left_cancel₀ hv0 h5).symm

/-- C1 witness: the amended statement's mutation clause at the concrete input
`y = x = [0, 1]`, `lam = [1, 1]`. -/
theorem C1_buffer_effects_witness :
    (stats.fitMVGausRun [0, 1] [0, 1] [(1 : ℝ), 1] (5 / 2) 4).2.2.2 ≠ [(1 : ℝ), 1].map some :=
  (C1_fitMVGaus_buffer_effects [0, 1] [0, 1] [1, 1] (5 / 2) 4).2.2.2
    (by norm_num) ⟨1, by norm_num, by norm_num⟩

/- ————————————————— C9 ————————————————— -/

/-- C9: the fit is invariant under positive rescaling of the weights: with `lam`
nonnegative and not all zero and `c > 0`, `fitMVGaus(y, x, c*lam)` returns exactly
the same `EllipseData` (mean, covariance, radii and boundary points) as
`fitMVGaus(y, x, lam)`. -/
theorem C9_scale_invariance (y x lam : List ℝ) (c thres : ℝ) (npts : ℕ)
    (hnn : ∀ v ∈ lam, 0 ≤ v) (hnz : ∃ v ∈ lam, v ≠ 0) (hc : 0 < c) :
    stats.fitMVGaus y x (lam.map (fun v => c * v)) thres npts =
      stats.fitMVGaus y x lam thres npts := by
  have hS : lam.sum ≠ 0 := by
    obtain ⟨v, hv, hv0⟩ := hnz
    have h1 : 0 < v := lt_of_le_of_ne (hnn v hv) (Ne.symm hv0)
    have h2 : v ≤ lam.sum := List.single_le_sum hnn v hv
    linarith
  unfold stats.fitMVGaus stats.fitMVGausRun
  rw [stats.normWeights_smul c (ne_of_gt hc) lam hS]

/-- C9 witness: scale invariance at the concrete input `y = x = [0, 1]`,
`lam = [1, 1]`, `c = 2`. -/
theorem C9_scale_invariance_witness :
    stats.fitMVGaus [0, 1] [0, 1] ([(1 : ℝ), 1].map (fun v => 2 * v)) (5 / 2) 4 =
      stats.fitMVGaus [0, 1] [0, 1] [(1 : ℝ), 1] (5 / 2) 4 :=
  C9_scale_invariance [0, 1] [0, 1] [1, 1] 2 (5 / 2) 4
    (by norm_num) ⟨1, by norm_num, by norm_num⟩ (by norm_num)

/- ————————————————— C10 ————————————————— -/

/-- C10: with the default radial reference table (radius 30, hence
`(2*30+1)^2 = 3721` entries), every ROI with at least 3721 pixels gets
`mean_r_squared0 = mean of the whole table`, a constant independent of the pixel
count, and the property is total (no error is raised). -/
theorem C10_mean_r_squared0_saturates (roi : ROI) (hr : roi.rsort = stats.rsortTable 30)
    (hn : 3721 ≤ roi.ypix.length) :
    roi.mean_r_squared0 = stats.mean (stats.rsortTable 30) := by
  have hlen : (stats.rsortTable 30).length ≤ roi.ypix.length := by
    rw [stats.rsortTable_length]
    norm_num
    omega
  rw [ROI.mean_r_squared0, hr, List.take_of_length_le hlen]

/-- C10 witness: a concrete ROI with exactly 3721 pixels. -/
theorem C10_saturation_witness :
    ROI.mean_r_squared0
      { ypix := List.replicate 3721 (0 : ℝ), xpix := List.replicate 3721 (0 : ℝ),
        lam := List.replicate 3721 (1 : ℝ), dx := none, dy := none } =
      stats.mean (stats.rsortTable 30) :=
  C10_mean_r_squared0_saturates _ rfl (by rw [List.length_replicate])

/- ————————————————— C3 ————————————————— -/

/-- C3: when either scale factor is absent, `radii` raises (and `radius` and
`aspect_ratio`, which go through `radii`, raise the same error), while the five
other derived properties do not depend on the scale factors at all: they are
unchanged under any replacement of `dx`/`dy`, so they remain independently
queryable on the same ROI. -/
theorem C3_radii_requires_scale (roi : ROI) (h : roi.dx = none ∨ roi.dy = none) :
    ROI.radii roi = Except.error "dx and dy are required for calculating radii." ∧
    ROI.radius roi = Except.error "dx and dy are required for calculating radii." ∧
    ROI.aspect_ratio roi = Except.error "dx and dy are required for calculating radii." ∧
    (∀ d1 d2 : Option ℤ,
      ROI.mean_r_squared { roi with dx := d1, dy := d2 } = ROI.mean_r_squared roi ∧
      ROI.mean_r_squared0 { roi with dx := d1, dy := d2 } = ROI.mean_r_squared0 roi ∧
      ROI.mean_r_squared_compact { roi with dx := d1, dy := d2 } =
        ROI.mean_r_squared_compact roi ∧
      ROI.median_pix { roi with dx := d1, dy := d2 } = ROI.median_pix roi ∧
      ROI.n_pixels { roi with dx := d1, dy := d2 } = ROI.n_pixels roi) := by
  have hrad : ROI.radii roi = Except.error "dx and dy are required for calculating radii." := by
    rcases hdx : roi.dx with _ | dxv <;> rcases hdy : roi.dy with _ | dyv <;>
      simp_all [ROI.radii]
  have hradius : ROI.radius roi =
      Except.error "dx and dy are required for calculating radii." := by
    rcases hdx : roi.dx with _ | dxv <;> rcases hdy : roi.dy with _ | dyv <;>
      simp_all [ROI.radius]
  refine ⟨hrad, hradius, ?_, ?_⟩
  · rw [ROI.aspect_ratio, hrad]
    rfl
  · intro d1 d2
    exact ⟨rfl, rfl, rfl, rfl, rfl⟩

/-- C3 witness: a concrete ROI with `dx` absent. -/
theorem C3_requires_scale_witness :
    ROI.radii { ypix := [0], xpix := [0], lam := [(1 : ℝ)], dx := none, dy := some 1 } =
      Except.error "dx and dy are required for calculating radii." :=
  (C3_radii_requires_scale _ (Or.inl rfl)).1

/- ————————————————— C5 ————————————————— -/

lemma stats.mem_rsortTable_iff {R : ℕ} {v : ℝ} :
    v ∈ stats.rsortTable R ↔ ∃ i < 2 * R + 1, ∃ j < 2 * R + 1,
      Real.sqrt (((i : ℝ) - (R : ℝ)) ^ 2 + ((j : ℝ) - (R : ℝ)) ^ 2) = v := by
  rw [stats.rsortTable, List.mem_mergeSort]
  simp [stats.distance_kernel, List.mem_flatten]

lemma stats.rsortTable_sorted (R : ℕ) : (stats.rsortTable R).Sorted (· ≤ ·) := by
  have htrans : ∀ a b c : ℝ, (fun a b : ℝ => decide (a ≤ b)) a b = true →
      (fun a b : ℝ => decide (a ≤ b)) b c = true →
      (fun a b : ℝ => decide (a ≤ b)) a c = true := by
    intro a b c h1 h2
    simp only [decide_eq_true_eq] at *
    exact le_trans h1 h2
  have htotal : ∀ a b : ℝ,
      ((fun a b : ℝ => decide (a ≤ b)) a b || (fun a b : ℝ => decide (a ≤ b)) b a) = true := by
    intro a b
    simp only [Bool.or_eq_true, decide_eq_true_eq]
    exact le_total a b
  have hp := @List.sorted_mergeSort ℝ (fun a b : ℝ => decide (a ≤ b)) htrans htotal
    ((stats.distance_kernel R).flatten)
  exact hp.imp (fun h => by simpa using h)

/-- C5: the radial reference table for a positive radius `R` has `(2R+1)^2` entries,
is sorted non-decreasing, its minimum entry is 0 (it contains 0 and every entry is
nonnegative) and its maximum entry is `R*sqrt 2` (it contains `R*sqrt 2` and every
entry is at most `R*sqrt 2`). -/
theorem C5_radial_table (R : ℕ) (hR : 0 < R) :
    (stats.rsortTable R).length = (2 * R + 1) ^ 2 ∧
    (stats.rsortTable R).Sorted (· ≤ ·) ∧
    (0 : ℝ) ∈ stats.rsortTable R ∧
    (∀ v ∈ stats.rsortTable R, 0 ≤ v) ∧
    ((R : ℝ) * Real.sqrt 2) ∈ stats.rsortTable R ∧
    (∀ v ∈ stats.rsortTable R, v ≤ (R : ℝ) * Real.sqrt 2) := by
  refine ⟨stats.rsortTable_length R, stats.rsortTable_sorted R, ?_, ?_, ?_, ?_⟩
  · exact stats.mem_rsortTable_iff.mpr ⟨R, by omega, R, by omega, by simp⟩
  · intro v hv
    obtain ⟨i, hi, j, hj, h⟩ := stats.mem_rsortTable_iff.mp hv
    rw [← h]
    exact Real.sqrt_nonneg _
  · refine stats.mem_rsortTable_iff.mpr ⟨0, by omega, 0, by omega, ?_⟩
    have h2 : ((0 : ℕ) : ℝ) - (R : ℝ) = -(R : ℝ) := by norm_num
    rw [h2]
    have h3 : (-(R : ℝ)) ^ 2 + (-(R : ℝ)) ^ 2 = 2 * (R : ℝ) ^ 2 := by ring
    rw [h3, Real.sqrt_mul (by norm_num) ((R : ℝ) ^ 2),
      Real.sqrt_sq (Nat.cast_nonneg R), mul_comm]
  · intro v hv
    obtain ⟨i, hi, j, hj, h⟩ := stats.mem_rsortTable_iff.mp hv
    rw [← h]
    have hiR : (i : ℝ) ≤ 2 * (R : ℝ) := by exact_mod_cast (by omega : i ≤ 2 * R)
    have hjR : (j : ℝ) ≤ 2 * (R : ℝ) := by exact_mod_cast (by omega : j ≤ 2 * R)
    have hi0 : (0 : ℝ) ≤ (i : ℝ) := Nat.cast_nonneg i
    have hj0 : (0 : ℝ) ≤ (j : ℝ) := Nat.cast_nonneg j
    have hsq1 : ((i : ℝ) - (R : ℝ)) ^ 2 ≤ (R : ℝ) ^ 2 := sq_le_sq' (by linarith) (by linarith)
    have hsq2 : ((j : ℝ) - (R : ℝ)) ^ 2 ≤ (R : ℝ) ^ 2 := sq_le_sq' (by linarith) (by linarith)
    have hle : ((i : ℝ) - (R : ℝ)) ^ 2 + ((j : ℝ) - (R : ℝ)) ^ 2 ≤ 2 * (R : ℝ) ^ 2 := by
      linarith
    calc Real.sqrt (((i : ℝ) - (R : ℝ)) ^ 2 + ((j : ℝ) - (R : ℝ)) ^ 2)
        ≤ Real.sqrt (2 * (R : ℝ) ^ 2) := Real.sqrt_le_sqrt hle
      _ = (R : ℝ) * Real.sqrt 2 := by
          rw [Real.sqrt_mul (by norm_num) ((R : ℝ) ^ 2),
            Real.sqrt_sq (Nat.cast_nonneg R), mul_comm]

/-- C5 witness: the table properties at the concrete radius 1. -/
theorem C5_radial_table_witness : (stats.rsortTable 1).length = (2 * 1 + 1) ^ 2 :=
  (C5_radial_table 1 (by norm_num)).1

/- ————————————————— C2 ————————————————— -/

lemma stats.centered_all_none : ∀ (lam1 : List stats.PF) (y : List ℝ) (mu : stats.PF),
    (∀ l ∈ lam1, l = none) → ∀ z ∈ stats.centered lam1 y mu, z = none := by
  intro lam1
  induction lam1 with
  | nil =>
    intro y mu h z hz
    simp [stats.centered] at hz
  | cons l t ih =>
    intro y mu h z hz
    cases y with
    | nil => simp [stats.centered] at hz
    | cons yi yt =>
      rw [stats.centered, List.zipWith_cons_cons] at hz
      rcases List.mem_cons.mp hz with heq | hmem
      · have hl : l = none := h l (List.mem_cons_self l t)
        rw [heq, hl, show stats.pfSqrt none = none from rfl]
        exact stats.pfMul_none_right _
      · exact ih yt mu (fun a ha => h a (List.mem_cons_of_mem l ha)) z hmem

/-- C2 counterexample: the degenerate all-empty input has `lam.sum() = 0`, yet
`fitMVGaus` returns normally (all quantities reduce to zeros, the covariance is
finite, and `np.linalg.eig` succeeds), so the claim's universal "fails with an
explicit error" is violated at this input. -/
theorem C2_counterexample :
    ([] : List ℝ).sum = 0 ∧ (stats.fitMVGaus [] [] [] (5 / 2) 4).isOk = true :=
  ⟨rfl, rfl⟩

/-- C2 (amended): for every input with at least one pixel whose weights sum to zero,
`fitMVGaus` fails with an explicit error rather than returning a NaN-filled result:
the in-place normalization `lam /= lam.sum()` makes every weight non-finite, the
covariance matrix inherits the non-finite entries, and `np.linalg.eig` raises
`LinAlgError("Array must not contain infs or NaNs")`, which propagates out of
`fitMVGaus`.  (Only the zero-pixel input returns without error, see the
counterexample.) -/
theorem C2_zero_weights_error (y x lam : List ℝ) (thres : ℝ) (npts : ℕ)
    (hne : lam ≠ []) (hy : y.length = lam.length) (hx : x.length = lam.length)
    (hsum : lam.sum = 0) :
    stats.fitMVGaus y x lam thres npts =
      Except.error "Array must not contain infs or NaNs" := by
  have hmapnone : ∀ l ∈ stats.normWeights lam, l = none := by
    intro l hl
    obtain ⟨v, hv, hrfl⟩ := List.mem_map.mp hl
    rw [← hrfl, stats.pyDiv, if_pos hsum]
  have hlpos : 0 < lam.length := List.length_pos.mpr hne
  have hycnone := stats.centered_all_none (stats.normWeights lam) y
    (stats.muOf (stats.normWeights lam) y) hmapnone
  have hxcnone := stats.centered_all_none (stats.normWeights lam) x
    (stats.muOf (stats.normWeights lam) x) hmapnone
  have hycne : stats.centered (stats.normWeights lam) y
      (stats.muOf (stats.normWeights lam) y) ≠ [] := by
    apply List.ne_nil_of_length_pos
    rw [stats.centered, List.length_zipWith, stats.normWeights, List.length_map, hy,
      min_self]
    exact hlpos
  have hxcne : stats.centered (stats.normWeights lam) x
      (stats.muOf (stats.normWeights lam) x) ≠ [] := by
    apply List.ne_nil_of_length_pos
    rw [stats.centered, List.length_zipWith, stats.normWeights, List.length_map, hx,
      min_self]
    exact hlpos
  have hyy := stats.pfDot_none_left _ _ hycnone hycne hycne
  have hyx := stats.pfDot_none_left _ _ hycnone hycne hxcne
  have hxy := stats.pfDot_none_left _ _ hxcnone hxcne hycne
  have hxx := stats.pfDot_none_left _ _ hxcnone hxcne hxcne
  have hstep : stats.fitMVGaus y x lam thres npts =
      stats.fitCore y x (stats.normWeights lam) thres npts := rfl
  rw [hstep]
  simp only [stats.fitCore]
  rw [hyy, hyx, hxy, hxx]

/-- C2 witness: the amended statement at the concrete input `y = x = [0, 1]`,
`lam = [0, 0]`. -/
theorem C2_zero_weights_error_witness :
    stats.fitMVGaus [0, 1] [0, 1] [(0 : ℝ), 0] (5 / 2) 4 =
      Except.error "Array must not contain infs or NaNs" :=
  C2_zero_weights_error [0, 1] [0, 1] [0, 0] (5 / 2) 4 (by simp) rfl rfl (by simp)

/- ————————————————— C8 ————————————————— -/

lemma listZipMapGet {α β γ : Type} (f : α × β → γ) :
    ∀ (A : List α) (B : List β) (i : ℕ),
      ((A.zip B).map f)[i]? = A[i]?.bind (fun a => B[i]?.map (fun b => f (a, b))) := by
  intro A
  induction A with
  | nil => intro B i; simp
  | cons a At ih =>
    intro B i
    cases B with
    | nil =>
      rw [List.zip_nil_right]
      cases h : (a :: At)[i]? <;> simp [h]
    | cons b Bt =>
      cases i with
      | zero => simp [List.zip_cons_cons]
      | succ n => simp [List.zip_cons_cons, List.getElem?_cons_succ, ih Bt n]

lemma listZipGet {α β : Type} (A : List α) (B : List β) (i : ℕ) :
    (A.zip B)[i]? = A[i]?.bind (fun a => B[i]?.map (fun b => (a, b))) := by
  have h := listZipMapGet (fun p : α × β => p) A B i
  rwa [List.map_id'] at h

lemma roiStatsNormGet (s1 : List Stat) (i : ℕ) :
    (stats.roiStatsNorm s1)[i]? =
      s1[i]?.bind (fun s =>
        ((stats.norm_by_average (s1.map (fun s => s.mrs.getD 0))
            stats.median (1 / 10 ^ 10) 100)[i]?).bind (fun m =>
          ((stats.norm_by_average (s1.map (fun s => s.npix.getD 0))
              stats.median 0 100)[i]?).map (fun p =>
            { s with mrs := some m, npix_norm := some p,
                     footprint := some (s.footprint.getD 0) }))) := by
  rw [stats.roiStatsNorm, listZipMapGet]
  cases s1[i]? with
  | none => rfl
  | some s =>
    rw [Option.some_bind, Option.some_bind, listZipGet]
    cases (stats.norm_by_average (s1.map (fun s => s.mrs.getD 0))
        stats.median (1 / 10 ^ 10) 100)[i]? with
    | none => rfl
    | some m =>
      rw [Option.some_bind, Option.some_bind]
      cases (stats.norm_by_average (s1.map (fun s => s.npix.getD 0))
          stats.median 0 100)[i]? with
      | none => rfl
      | some p => rfl

/-- C8 (amended): `roi_stats` runs the per-record pass, then invokes the Population
Normalizer twice — on the mean-r-squared values (`mrs`, median estimator, offset
1e-10, first 100) and on the raw pixel counts (`npix`, default estimator, first
100).  It overwrites only the `mrs` field with its normalized value; the normalized
pixel count is stored in the separate new field `npix_norm` while the raw `npix`
field is left unchanged; and `footprint` is set to 0 in every record where it was
absent. -/
theorem C8_roi_stats_normalization (dy dx : ℤ) (batch s1 : List Stat)
    (h : batch.mapM (stats.roiStatsPer dy dx) = Except.ok s1) (i : ℕ) :
    stats.roi_stats dy dx batch = Except.ok (stats.roiStatsNorm s1) ∧
    (stats.roiStatsNorm s1)[i]?.map (fun s => s.mrs) =
      ((stats.norm_by_average (s1.map (fun s => s.mrs.getD 0))
          stats.median (1 / 10 ^ 10) 100)[i]?).map some ∧
    (stats.roiStatsNorm s1)[i]?.map (fun s => s.npix_norm) =
      ((stats.norm_by_average (s1.map (fun s => s.npix.getD 0))
          stats.median 0 100)[i]?).map some ∧
    (stats.roiStatsNorm s1)[i]?.map (fun s => s.npix) = s1[i]?.map (fun s => s.npix) ∧
    (stats.roiStatsNorm s1)[i]?.map (fun s => s.footprint) =
      s1[i]?.map (fun s => some (s.footprint.getD 0)) := by
  refine ⟨by rw [stats.roi_stats, h]; rfl, ?_, ?_, ?_, ?_⟩ <;>
  · rw [roiStatsNormGet]
    cases h2 : s1[i]? with
    | none =>
      have hlen : s1.length ≤ i := List.getElem?_eq_none_iff.mp h2
      have hm : (stats.norm_by_average (s1.map (fun s => s.mrs.getD 0))
          stats.median (1 / 10 ^ 10) 100)[i]? = none := by
        apply List.getElem?_eq_none
        simpa [stats.norm_by_average] using hlen
      have hp : (stats.norm_by_average (s1.map (fun s => s.npix.getD 0))
          stats.median 0 100)[i]? = none := by
        apply List.getElem?_eq_none
        simpa [stats.norm_by_average] using hlen
      simp only [hm, hp, Option.none_bind, Option.map_none']
    | some s =>
      have hm : (stats.norm_by_average (s1.map (fun s => s.mrs.getD 0))
          stats.median (1 / 10 ^ 10) 100)[i]? =
          some ((s.mrs.getD 0) /
            (stats.median ((s1.map (fun s => s.mrs.getD 0)).take 100) + 1 / 10 ^ 10)) := by
        simp [stats.norm_by_average, List.getElem?_map, h2]
      have hp : (stats.norm_by_average (s1.map (fun s => s.npix.getD 0))
          stats.median 0 100)[i]? =
          some ((s.npix.getD 0) /
            (stats.median ((s1.map (fun s => s.npix.getD 0)).take 100) + 0)) := by
        simp [stats.norm_by_average, List.getElem?_map, h2]
      simp only [hm, hp, Option.some_bind, Option.map_some']

/-- C8 witness: the amended statement at the concrete empty batch (the per-record
pass trivially succeeds there). -/
theorem C8_roi_stats_witness :
    stats.roi_stats 1 1 [] = Except.ok (stats.roiStatsNorm []) :=
  (C8_roi_stats_normalization 1 1 [] [] rfl 0).1

/-- C8 counterexample: on a one-record batch (raw pixel count 4, normalized pixel
count 1), after `roi_stats` the `npix` field still holds the raw value 4 while the
normalized value 1 went to the new `npix_norm` field — so the claim that the
pixel-count field is overwritten with its normalized value is false. -/
theorem C8_counterexample :
    ((stats.roi_stats 1 1 [C8stat]).toOption.bind (fun l => l[0]?)).map (fun s => s.npix) =
      some (some 4) ∧
    ((stats.roi_stats 1 1 [C8stat]).toOption.bind (fun l => l[0]?)).map
      (fun s => s.npix_norm) = some (some 1) ∧
    ((4 : ℝ)) ≠ 1 := by
  have hmapM : [C8stat].mapM (stats.roiStatsPer 1 1) = Except.ok [C8base] := rfl
  have hnpix : C8base.npix = some 4 := by
    norm_num [C8base, C8stat, C8roi, ROI.n_pixels]
  have hroi : stats.roi_stats 1 1 [C8stat] = Except.ok (stats.roiStatsNorm [C8base]) := by
    rw [stats.roi_stats, hmapM]
    rfl
  have hget : (stats.roiStatsNorm [C8base])[0]? =
      some { C8base with
        mrs := some ((C8base.mrs.getD 0) /
          (stats.median (([C8base].map (fun s => s.mrs.getD 0)).take 100) + 1 / 10 ^ 10))
        npix_norm := some ((C8base.npix.getD 0) /
          (stats.median (([C8base].map (fun s => s.npix.getD 0)).take 100) + 0))
        footprint := some (C8base.footprint.getD 0) } := by
    rw [roiStatsNormGet]
    simp [stats.norm_by_average]
  have hlist : List.map (fun s => s.npix.getD 0) [C8base] = [(4 : ℝ)] := by
    simp [hnpix]
  have hpval : (C8base.npix.getD 0) /
      (stats.median ((List.map (fun s => s.npix.getD 0) [C8base]).take 100) + 0) = 1 := by
    rw [hlist, hnpix, List.take_of_length_le (by norm_num), stats.median_singleton]
    norm_num
  rw [hroi]
  refine ⟨?_, ?_, by norm_num⟩
  · show ((stats.roiStatsNorm [C8base])[0]?).map (fun s => s.npix) = some (some 4)
    rw [hget, Option.map_some']
    exact congrArg some hnpix
  · show ((stats.roiStatsNorm [C8base])[0]?).map (fun s => s.npix_norm) = some (some 1)
    rw [hget, Option.map_some']
    exact congrArg some (congrArg some hpval)

end
